import Mathlib

/-!
Shallow embedding of the `coquma-sim-spooler` repository.

Part 1 embeds `src/sqooler/schemes.py`: the job-payload values, the
`GateDict` parser `gate_dict_from_list`, and the `Spooler` class with
`check_experiment`, `check_instructions`, `check_json_dict` and `add_job`.

Part 2 embeds `src/sqooler/storage_providers/mongodb.py`: the document
store state, the primitive collection operations, and the provider
methods `upload`, `get_file_content`, `update_file`, `move_file`,
`upload_config`, `get_status`, `get_file_queue`, `get_next_job_in_queue`
and `update_in_database`.

Fallible Python code is embedded with `Except`: a `.error` value models an
exception escaping the function, a `.ok` value a normal return.  Python
exceptions that the source catches are modelled inside the functions, as
the source handles them.  Strings are Lean `String`s; the Python string
operations used by the source (`startswith`, slicing, `isdigit`, `int`,
`split`, `join`, `strip`, `replace`) are re-implemented character-wise on
`String.data`, which matches Python semantics on ASCII data.
-/

namespace Sqooler

deriving instance DecidableEq for Except

/-- An atomic Python value in a job payload: a string or a number.
Numeric parameters are modelled as integers (the code never computes
with them; pydantic accepts integers wherever floats are expected). -/
inductive PyAtom where
  | str (s : String)
  | int (n : Int)
deriving DecidableEq

/-- A Python value in a job payload: an atom or a flat list of atoms.
One level of list nesting is all the embedded fragment ever reads. -/
inductive PyVal where
  | atom (a : PyAtom)
  | list (xs : List PyAtom)
deriving DecidableEq

/-- Shorthand for a string value. -/
def PyVal.str (x : String) : PyVal := .atom (.str x)

/-- Shorthand for an integer value. -/
def PyVal.int (n : Int) : PyVal := .atom (.int n)

/-- A Python dictionary with string keys, as stored in the database. -/
abbrev Doc := List (String × PyVal)

/-- `GateDict` of `schemes.py`: name, wires and params of one instruction. -/
structure GateDict where
  name : String
  wires : List Int
  params : List Int
deriving DecidableEq

/-- `StatusMsgDict` of `schemes.py`. -/
structure StatusMsgDict where
  job_id : String
  status : String
  detail : String
  error_message : String
deriving DecidableEq

/-- `ExperimentDict` of `schemes.py`: the record produced by the
`gen_circuit` callback for one experiment. -/
structure ExperimentDict where
  header : Doc
  shots : Int
  success : Bool
  data : Doc
deriving DecidableEq

/-- `ResultDict` of `schemes.py`. -/
structure ResultDict where
  backend_name : Option String := none
  display_name : String
  backend_version : String
  job_id : String
  qobj_id : Option String := none
  success : Bool
  status : String
  header : Doc
  results : List ExperimentDict
deriving DecidableEq

/-- Python exceptions that escape the embedded `schemes.py` fragment.
`IndexError` is raised by `gate_dict_from_list` on a record with fewer
than 3 elements and is caught nowhere in `check_instructions`,
`check_json_dict` or `add_job`. -/
inductive PyError where
  | indexError
deriving DecidableEq

/-- Python `int(s)` on a digit string (ASCII). -/
def pyIntOfChars (l : List Char) : Nat :=
  l.foldl (fun a c => 10 * a + (c.toNat - 48)) 0

/-- pydantic coercion of a value into a `str` field (no lax coercion from
numbers to strings in pydantic v2). -/
def pyStrField : PyVal → Option String
  | .atom (.str s) => some s
  | _ => none

/-- pydantic lax coercion of one list element into an `int`/`float`
field: a number passes, and a purely numeric string is coerced. -/
def pyNumAtom : PyAtom → Option Int
  | .int n => some n
  | .str s =>
    if !s.data.isEmpty && s.data.all Char.isDigit then
      some (pyIntOfChars s.data) else none

/-- pydantic coercion of a value into a `list[int]` / `list[float]`
field: the value must be a list and every element must coerce. -/
def pyNumList : PyVal → Option (List Int)
  | .list xs => xs.mapM pyNumAtom
  | _ => none

/-- Outcome of `gate_dict_from_list`: an uncaught `IndexError` when the
record has fewer than 3 elements, a pydantic `ValidationError` when the
element types do not fit `GateDict`, or the parsed gate. -/
inductive GDRes where
  | indexError
  | validationError (msg : String)
  | ok (g : GateDict)
deriving DecidableEq

/-- Stand-in for the text of a pydantic `ValidationError` on `GateDict`
(the code only ever prefixes it with `"Error in instruction "`). -/
def gdValidationMsg : String := "1 validation error for GateDict"

/-- `gate_dict_from_list` of `schemes.py`: reads `inst_list[0]`,
`inst_list[1]`, `inst_list[2]` (raising `IndexError` when the list is
shorter than 3) and validates them as a `GateDict`. -/
def gate_dict_from_list : List PyVal → GDRes
  | v0 :: v1 :: v2 :: _ =>
    match pyStrField v0, pyNumList v1, pyNumList v2 with
    | some n, some w, some p => .ok { name := n, wires := w, params := p }
    | _, _, _ => .validationError gdValidationMsg
  | _ => .indexError

/-- One experiment body of a job payload.  The source accesses
`json_dict[expr]["instructions"]` after the experiment-level pydantic
check passed, so the instruction list is a field here; the remaining
fields (`shots`, `num_wires`, ...) are opaque to the embedded code and
kept as a raw dictionary. -/
structure ExperVal where
  instructions : List (List PyVal)
  meta : Doc
deriving DecidableEq

/-- Default `Spooler.check_dimension`: always fine. -/
def check_dimension_default : List (String × ExperVal) → String × Bool :=
  fun _ => ("", true)

/-- The `Spooler` class of `schemes.py`.  `ins_schema_dict` maps an
instruction name to the pydantic validation of that instruction
(`none` = passes, `some msg` = `ValidationError` with message `msg`);
`deviceCheck` is the pydantic validation done by `check_experiment`
through `device_config`; `dimCheck` is the overridable
`check_dimension`; `gen_circuit` is the runtime-assigned execution
callback, invoked on the singleton mapping `{exp: json_dict[exp]}`. -/
structure Spooler where
  ins_schema_dict : List (String × (GateDict → Option String))
  deviceCheck : ExperVal → Option String
  dimCheck : List (String × ExperVal) → String × Bool := check_dimension_default
  gen_circuit : String × ExperVal → ExperimentDict
  n_max_experiments : Nat := 15
  display_name : String := ""
  version : String := "0.0.1"

/-- Python `s.startswith(pre)`. -/
def pyStartsWith (s pre : String) : Bool := pre.data.isPrefixOf s.data

/-- Python `s[n:]`. -/
def pySliceFrom (s : String) (n : Nat) : String := ⟨s.data.drop n⟩

/-- Python `s.isdigit()` (ASCII): nonempty and all characters digits. -/
def pyIsDigit (s : String) : Bool := !s.data.isEmpty && s.data.all Char.isDigit

/-- Python `int(s)` on a digit string. -/
def pyInt (s : String) : Nat := pyIntOfChars s.data

/-- Python `s.replace("\n", "..")` (a one-character pattern). -/
def pyReplaceNL (s : String) : String :=
  ⟨(s.data.map (fun c => if c = '\n' then ['.', '.'] else [c])).flatten⟩

/-- `Spooler.check_experiment`: validate the experiment body against
`device_config`, catching the `ValidationError`. -/
def check_experiment (sp : Spooler) (exper : ExperVal) : String × Bool :=
  match sp.deviceCheck exper with
  | none => ("", true)
  | some err => (err, false)

/-- The `for ins in ins_list` loop of `Spooler.check_instructions`,
threading the `err_code, exp_ok` pair.  `IndexError` from
`gate_dict_from_list` is not caught and escapes; a `ValidationError`
(from the gate parse or the per-instruction schema) is caught and sets
`err_code`; an unknown instruction name returns directly. -/
def checkInsLoop (sp : Spooler) (acc : String × Bool) :
    List (List PyVal) → Except PyError (String × Bool)
  | [] => .ok acc
  | ins :: rest =>
    match gate_dict_from_list ins with
    | .indexError => .error .indexError
    | .validationError m => .ok ("Error in instruction " ++ m, false)
    | .ok g =>
      match sp.ins_schema_dict.lookup g.name with
      | none => .ok ("Instruction not allowed.", false)
      | some check =>
        match check g with
        | some m => .ok ("Error in instruction " ++ m, false)
        | none => checkInsLoop sp (acc.1, true) rest

/-- `Spooler.check_instructions` with its initial `err_code = ""`,
`exp_ok = False`. -/
def check_instructions (sp : Spooler) (ins_list : List (List PyVal)) :
    Except PyError (String × Bool) :=
  checkInsLoop sp ("", false) ins_list

/-- The experiment-name test of `Spooler.check_json_dict`:
`expr.startswith("experiment_") and expr[11:].isdigit() and
int(expr[11:]) <= self.n_max_experiments`. -/
def expNameOk (sp : Spooler) (expr : String) : Bool :=
  pyStartsWith expr "experiment_" && pyIsDigit (pySliceFrom expr 11)
    && decide (pyInt (pySliceFrom expr 11) ≤ sp.n_max_experiments)

/-- The `for expr in json_dict` loop of `Spooler.check_json_dict`,
threading the `err_code, exp_ok` pair. -/
def checkJsonLoop (sp : Spooler) (acc : String × Bool) :
    List (String × ExperVal) → Except PyError (String × Bool)
  | [] => .ok acc
  | (expr, body) :: rest =>
    if expNameOk sp expr then
      match check_experiment sp body with
      | (err, false) => .ok (err, false)
      | (_, true) =>
        match check_instructions sp body.instructions with
        | .error e => .error e
        | .ok (err, false) => .ok (err, false)
        | .ok (err, true) => checkJsonLoop sp (err, true) rest
    else .ok ("Wrong experiment name or too many experiments", false)

/-- `Spooler.check_json_dict`: the loop starting from
`err_code = "No instructions received."`, `exp_ok = False`, with the
final `err_code.replace("\n", "..")` on the returned message. -/
def check_json_dict (sp : Spooler) (json_dict : List (String × ExperVal)) :
    Except PyError (String × Bool) :=
  (checkJsonLoop sp ("No instructions received.", false) json_dict).map
    (fun p => (pyReplaceNL p.1, p.2))

/-- Text appended to `detail` on the success path of `add_job` (the
string literal contains a backslash line continuation, so the 20 spaces
of the continuation line are part of the message). -/
def doneDetail : String :=
  "; Passed json sanity check; Compilation done. " ++
    "                    Shots sent to solver."

/-- `Spooler.add_job`: validate with `check_json_dict`, then
`check_dimension`, then run `gen_circuit` per experiment; failures are
recorded on the status record.  An exception escaping `check_json_dict`
escapes `add_job` as well. -/
def add_job (sp : Spooler) (json_dict : List (String × ExperVal))
    (status_msg_dict : StatusMsgDict) :
    Except PyError (ResultDict × StatusMsgDict) :=
  match check_json_dict sp json_dict with
  | .error e => .error e
  | .ok (err_msg, json_is_fine) =>
    if json_is_fine then
      match sp.dimCheck json_dict with
      | (_, true) =>
        .ok ({ display_name := sp.display_name, backend_version := sp.version,
               job_id := status_msg_dict.job_id, success := true, status := "finished",
               header := [],
               results := json_dict.map (fun p => sp.gen_circuit p) },
             { status_msg_dict with
                detail := status_msg_dict.detail ++ doneDetail,
                status := "DONE" })
      | (dim_err_msg, false) =>
        .ok ({ display_name := sp.display_name, backend_version := sp.version,
               job_id := status_msg_dict.job_id, success := true, status := "finished",
               header := [], results := [] },
             { status_msg_dict with
                detail := status_msg_dict.detail ++
                  "; Failed dimensionality test. Too many atoms. File will be deleted. Error message : "
                  ++ dim_err_msg,
                error_message := status_msg_dict.error_message ++
                  "; Failed dimensionality test. Too many atoms. File will be deleted. Error message :  "
                  ++ dim_err_msg,
                status := "ERROR" })
    else
      .ok ({ display_name := sp.display_name, backend_version := sp.version,
             job_id := status_msg_dict.job_id, success := true, status := "finished",
             header := [], results := [] },
           { status_msg_dict with
              detail := status_msg_dict.detail ++
                "; Failed json sanity check. File will be deleted. Error message : "
                ++ err_msg,
              error_message := status_msg_dict.error_message ++
                "; Failed json sanity check. File will be deleted. Error message : "
                ++ err_msg,
              status := "ERROR" })

end Sqooler

namespace Sqooler

/-! ## Part 2: the MongoDB storage provider (`storage_providers/mongodb.py`)

The provider addresses a collection by splitting a storage path on `/`:
the first segment selects the database, the remaining segments joined
with `.` select the collection.  A collection is a list of documents in
insertion order, keyed by their `_id` (kept here as the id string).
`validate_active` (defined in the absent `storage_providers/base.py`)
only gates calls on `is_active`; the provider is modelled with the
default `is_active = True`, under which the decorator is the identity. -/

/-- Python `s.split(sep)` for a one-character separator, on char lists. -/
def splitChar (sep : Char) : List Char → List (List Char)
  | [] => [[]]
  | c :: rest =>
    match splitChar sep rest with
    | [] => [[c]]
    | g :: gs => if c = sep then [] :: g :: gs else (c :: g) :: gs

/-- Python `sep.join(parts)` for a one-character separator. -/
def joinChar (sep : Char) (parts : List (List Char)) : List Char :=
  List.intercalate [sep] parts

/-- The database / collection pair addressed by a list of characters:
the segment before the first `/` and the remaining segments joined with
`.`. -/
def dbCollOf (l : List Char) : List Char × List Char :=
  match splitChar '/' l with
  | [] => ([], [])
  | d :: rest => (d, joinChar '.' rest)

/-- The database / collection pair addressed by a storage path:
`storage_path.split("/")[0]` and `".".join(storage_path.split("/")[1:])`. -/
def dbColl (storage_path : String) : List Char × List Char :=
  dbCollOf storage_path.data

/-- A MongoDB collection: documents in insertion order, keyed by id. -/
abbrev Coll := List (String × Doc)

/-- The state of the MongoDB deployment: its collections, keyed by the
database / collection pair. -/
structure MongoState where
  colls : List ((List Char × List Char) × Coll)
deriving DecidableEq

/-- Look up a collection (an absent collection reads as empty, as in
MongoDB). -/
def getColl (st : MongoState) (key : List Char × List Char) : Coll :=
  ((st.colls.find? (fun e => e.1 = key)).map Prod.snd).getD []

/-- Replace a collection wholesale (creating it if absent). -/
def setColl (st : MongoState) (key : List Char × List Char) (c : Coll) :
    MongoState :=
  if (st.colls.find? (fun e => e.1 = key)).isSome then
    ⟨st.colls.map (fun e => if e.1 = key then (key, c) else e)⟩
  else ⟨st.colls ++ [(key, c)]⟩

/-- First document with the given id, if any (`find_one` by `_id`). -/
def docGet : Coll → String → Option Doc
  | [], _ => none
  | (i, d) :: rest, id => if i = id then some d else docGet rest id

/-- Remove the first document with the given id (`delete_one` by `_id`). -/
def docRemove : Coll → String → Coll
  | [], _ => []
  | (i, d) :: rest, id => if i = id then rest else (i, d) :: docRemove rest id

/-- Replace the content of the first document with the given id
(`replace_one` by `_id`). -/
def docReplace : Coll → String → Doc → Coll
  | [], _, _ => []
  | (i, d) :: rest, id, nd => if i = id then (i, nd) :: rest
      else (i, d) :: docReplace rest id nd

/-- Exceptions raised by the embedded provider code.  `invalidId` is
bson `InvalidId`, `duplicateKey` the pymongo duplicate-`_id` error,
`typeError` pymongo inserting `None`, `fileNotFound` Python
`FileNotFoundError`, `valueError` Python `ValueError`. -/
inductive MErr where
  | invalidId
  | duplicateKey
  | typeError
  | fileNotFound (msg : String)
  | valueError (msg : String)
deriving DecidableEq

/-- A character bson accepts in a 24-character hex object id. -/
def isHexChar (c : Char) : Bool :=
  c.isDigit || ('a' ≤ c && c ≤ 'f') || ('A' ≤ c && c ≤ 'F')

/-- Whether `ObjectId(job_id)` succeeds: a 24-character hex string. -/
def validObjectId (s : String) : Bool :=
  decide (s.data.length = 24) && s.data.all isHexChar

/-- `insert_one` of a document with a given `_id`: raises the duplicate
key error if the id exists, otherwise appends. -/
def insertOne (st : MongoState) (path id : String) (d : Doc) :
    Except MErr MongoState :=
  let key := dbColl path
  let c := getColl st key
  if (docGet c id).isSome then .error .duplicateKey
  else .ok (setColl st key (c ++ [(id, d)]))

/-- `find_one` by `_id` at a storage path. -/
def findOneById (st : MongoState) (path id : String) : Option Doc :=
  docGet (getColl st (dbColl path)) id

/-- `delete_one` by `_id` at a storage path (no error when absent). -/
def deleteOneById (st : MongoState) (path id : String) : MongoState :=
  setColl st (dbColl path) (docRemove (getColl st (dbColl path)) id)

/-- Whether a document with the given id exists at a storage path. -/
def present (st : MongoState) (path id : String) : Bool :=
  (findOneById st path id).isSome

/-- `MongodbProviderExtended.upload`: `ObjectId(job_id)` (raising
`InvalidId`, uncaught, when malformed) then `insert_one`. -/
def upload (st : MongoState) (content_dict : Doc) (storage_path job_id : String) :
    Except MErr MongoState :=
  if !validObjectId job_id then .error .invalidId
  else insertOne st storage_path job_id content_dict

/-- `MongodbProviderExtended.get_file_content`: a malformed id is caught
(`InvalidId`) and re-raised as `FileNotFoundError`; an absent id raises
`FileNotFoundError` as well. -/
def get_file_content (st : MongoState) (storage_path job_id : String) :
    Except MErr Doc :=
  if !validObjectId job_id then
    .error (.fileNotFound ("The job_id " ++ job_id ++
      " is not valid. Please check the job_id."))
  else
    match findOneById st storage_path job_id with
    | none => .error (.fileNotFound ("Could not find a file under " ++
        storage_path ++ " with the id " ++ job_id ++ "."))
    | some d => .ok d

/-- `MongodbProviderExtended.update_file`: `replace_one` by `_id`;
raises `FileNotFoundError` when nothing matched. -/
def update_file (st : MongoState) (content_dict : Doc) (storage_path job_id : String) :
    Except MErr MongoState :=
  if !validObjectId job_id then .error .invalidId
  else
    let c := getColl st (dbColl storage_path)
    if (docGet c job_id).isSome then
      .ok (setColl st (dbColl storage_path) (docReplace c job_id content_dict))
    else .error (.fileNotFound ("Could not update file under " ++ storage_path))

/-- The state in the middle of `move_file`, after the `delete_one` from
the source collection and before the `insert_one` into the destination
collection (the source performs find, then delete, then insert, in that
order). -/
def move_file_mid (st : MongoState) (start_path job_id : String) : MongoState :=
  deleteOneById st start_path job_id

/-- `MongodbProviderExtended.move_file`: find the document at the start
path, delete it there, then insert the found document at the final path
(`insert_one(None)` raising `TypeError` when nothing was found). -/
def move_file (st : MongoState) (start_path final_path job_id : String) :
    Except MErr MongoState :=
  if !validObjectId job_id then .error .invalidId
  else
    match findOneById st start_path job_id with
    | none => .error .typeError
    | some d => insertOne (move_file_mid st start_path job_id) final_path job_id d

/-- `StatusMsgDict.model_dump()`. -/
def statusDoc (s : StatusMsgDict) : Doc :=
  [("job_id", .str s.job_id), ("status", .str s.status),
   ("detail", .str s.detail), ("error_message", .str s.error_message)]

/-- Read a string field of a stored document. -/
def docFieldStr (d : Doc) (k : String) : Option String :=
  match d.find? (fun e => e.1 = k) with
  | some e => pyStrField e.2
  | none => none

/-- `StatusMsgDict(**status_dict)`: pydantic validation of a stored
status document. -/
def statusFromDoc (d : Doc) : Option StatusMsgDict :=
  match docFieldStr d "job_id", docFieldStr d "status",
      docFieldStr d "detail", docFieldStr d "error_message" with
  | some a, some b, some c, some e =>
    some { job_id := a, status := b, detail := c, error_message := e }
  | _, _, _, _ => none

/-- `MongodbProviderExtended.get_status`: fetch
`status/<display_name>/<job_id>`; a `FileNotFoundError` (malformed or
absent id) is caught and turned into an `ERROR` status record carrying
the exception text.  A stored document that fails the `StatusMsgDict`
validation raises (uncaught `ValidationError`). -/
def get_status (st : MongoState) (display_name username job_id : String) :
    Except MErr StatusMsgDict :=
  match get_file_content st ("status/" ++ display_name) job_id with
  | .ok d =>
    match statusFromDoc d with
    | some s => .ok s
    | none => .error (.valueError "validation error for StatusMsgDict")
  | .error (.fileNotFound msg) =>
    .ok { job_id := job_id, status := "ERROR",
          detail := "The job_id is not valid.", error_message := msg }
  | .error e => .error e

/-- `MongodbProviderExtended.update_in_database`: on `DONE`, a `None`
result raises `ValueError` before any write; otherwise the result is
uploaded to `results/<backend_name>`, the job is moved from
`jobs/running` to `jobs/finished/<backend_name>`, and the status record
is replaced last.  On `ERROR` the job is moved from `jobs/running` to
`jobs/deleted` and the status record is replaced last.  On any other
status only the status record is replaced. -/
def update_in_database (st : MongoState) (result_dict : Option Doc)
    (status_msg_dict : StatusMsgDict) (job_id backend_name : String) :
    Except MErr MongoState :=
  if status_msg_dict.status = "DONE" then
    match result_dict with
    | none => .error (.valueError
        "The \x27result_dict\x27 argument cannot be None if the job is done.")
    | some r =>
      match upload st r ("results/" ++ backend_name) job_id with
      | .error e => .error e
      | .ok st1 =>
        match move_file st1 "jobs/running"
            ("jobs/finished/" ++ backend_name) job_id with
        | .error e => .error e
        | .ok st2 =>
          update_file st2 (statusDoc status_msg_dict)
            ("status/" ++ backend_name) job_id
  else if status_msg_dict.status = "ERROR" then
    match move_file st "jobs/running" "jobs/deleted" job_id with
    | .error e => .error e
    | .ok st1 =>
      update_file st1 (statusDoc status_msg_dict)
        ("status/" ++ backend_name) job_id
  else
    update_file st (statusDoc status_msg_dict)
      ("status/" ++ backend_name) job_id

/-- Python `s.strip("/")`. -/
def pyStripSlash (s : String) : String :=
  ⟨((s.data.dropWhile (· = '/')).reverse.dropWhile (· = '/')).reverse⟩

/-- `MongodbProviderExtended.get_file_queue`: the ids of all documents
in the collection at the (slash-stripped) storage path, in enumeration
order. -/
def get_file_queue (st : MongoState) (storage_path : String) : List String :=
  (getColl st (dbColl (pyStripSlash storage_path))).map (·.1)

/-- The dictionary returned by `get_next_job_in_queue`, with its default
values `{"job_id": 0, "job_json_path": "None"}`. -/
structure NextJobDict where
  job_id : PyVal := .int 0
  job_json_path : String := "None"
deriving DecidableEq

/-- `MongodbProviderExtended.get_next_job_in_queue`: list
`jobs/queued/<backend_name>`; if empty, return the default dictionary;
otherwise take the first id, move that job to `jobs/running` and return
the id with the new location. -/
def get_next_job_in_queue (st : MongoState) (backend_name : String) :
    Except MErr (NextJobDict × MongoState) :=
  match get_file_queue st ("jobs/queued/" ++ backend_name) with
  | [] => .ok ({}, st)
  | job_id :: _ =>
    match move_file st ("jobs/queued/" ++ backend_name) "jobs/running" job_id with
    | .error e => .error e
    | .ok st1 => .ok ({ job_id := .str job_id, job_json_path := "jobs/running" }, st1)

/-- Write a field of a pydantic model dump (the model always carries the
field, so replacement suffices). -/
def setField (d : Doc) (k : String) (v : PyVal) : Doc :=
  d.map (fun e => if e.1 = k then (k, v) else e)

/-- The `find_one({"display_name": backend_name})` of `upload_config`:
the first stored config whose `display_name` field is the given name,
together with its `_id`. -/
def findConfigByDisplay (st : MongoState) (backend_name : String) :
    Option (String × Doc) :=
  (getColl st (dbColl "backends/configs")).find?
    (fun e => docFieldStr e.2 "display_name" = some backend_name)

/-- `MongodbProviderExtended.upload_config`: look the display name up in
`backends/configs`; if found, `update_file` the existing document in
place (under its stored `_id`); otherwise `upload` under a fresh
24-character id (`fresh_id` stands for the `uuid4` draw). -/
def upload_config (st : MongoState) (config_dict : Doc) (backend_name fresh_id : String) :
    Except MErr MongoState :=
  match findConfigByDisplay st backend_name with
  | some found =>
    update_file st (setField config_dict "display_name" (.str backend_name))
      "backends/configs" found.1
  | none =>
    upload st (setField config_dict "display_name" (.str backend_name))
      "backends/configs" fresh_id

/-- An experiment entry that passes all three stages of the
`check_json_dict` loop: name check, experiment-level pydantic check, and
instruction check. -/
def expFullPass (sp : Spooler) (p : String × ExperVal) : Prop :=
  expNameOk sp p.1 = true ∧ sp.deviceCheck p.2 = none ∧
    ∃ e, check_instructions sp p.2.instructions = .ok (e, true)

/-- An instruction record that `check_instructions` accepts: it parses,
its name is registered, and its own schema validates. -/
def insAccepted (sp : Spooler) (i : List PyVal) : Prop :=
  ∃ g check, gate_dict_from_list i = .ok g ∧
    sp.ins_schema_dict.lookup g.name = some check ∧ check g = none

/-- A spooler like the one of `tests/test_spooler.py`: one registered
instruction named `"test"` whose schema accepts everything, an
experiment-level check that accepts everything, and the default
dimension check. -/
def demoSpooler : Spooler where
  ins_schema_dict := [("test", fun _ => none)]
  deviceCheck := fun _ => none
  gen_circuit := fun _ => { header := [], shots := 3, success := true, data := [] }

/-- The status record used by `tests/test_spooler.py`. -/
def demoStatus : StatusMsgDict :=
  { job_id := "Test_ID", status := "None", detail := "None",
    error_message := "None" }

/-- A valid 24-character hex object id used in concrete runs. -/
def sampleId : String := "0123456789abcdef01234567"

/-- A sample stored job document. -/
def sampleDoc : Doc := [("payload", .int 1)]

/-- A state with one job in the `jobs/running` pool. -/
def runningState : MongoState :=
  ⟨[(dbColl "jobs/running", [(sampleId, sampleDoc)])]⟩

/-- A state with one job queued for the backend `alice`. -/
def queuedState : MongoState :=
  ⟨[(dbColl "jobs/queued/alice", [(sampleId, sampleDoc)])]⟩

/-- A registered config document for the backend `alice`. -/
def aliceCfg : Doc := [("display_name", .str "alice"), ("version", .str "1")]

/-- A fresh config upload for the same display name. -/
def aliceCfg2 : Doc := [("display_name", .str "x"), ("version", .str "2")]

/-- A state with a config for `alice` already registered. -/
def configState : MongoState :=
  ⟨[(dbColl "backends/configs", [(sampleId, aliceCfg)])]⟩

/-- The status record created at upload time. -/
def initStatus : StatusMsgDict :=
  { job_id := sampleId, status := "INITIALIZING",
    detail := "Got your json.", error_message := "None" }

/-- A terminal `DONE` status record. -/
def doneStatus : StatusMsgDict :=
  { job_id := sampleId, status := "DONE", detail := "d",
    error_message := "None" }

/-- A terminal `ERROR` status record. -/
def errorStatus : StatusMsgDict :=
  { job_id := sampleId, status := "ERROR", detail := "d",
    error_message := "e" }

/-- A state with one running job and its status record for backend
`alice`. -/
def dbState : MongoState :=
  ⟨[(dbColl "jobs/running", [(sampleId, sampleDoc)]),
    (dbColl "status/alice", [(sampleId, statusDoc initStatus)])]⟩

end Sqooler

namespace Sqooler

/-! ## Supporting lemmas -/

theorem string_mk_data (s : String) : (⟨s.data⟩ : String) = s := by cases s; rfl

theorem flattenNL_of_no_newline (l : List Char) (h : '\n' ∉ l) :
    (l.map (fun c => if c = '\n' then ['.', '.'] else [c])).flatten = l := by
  induction l with
  | nil => rfl
  | cons c rest ih =>
    simp only [List.mem_cons, not_or] at h
    rw [List.map_cons, List.flatten_cons, if_neg (fun hc => h.1 hc.symm), ih h.2]
    rfl

theorem pyReplaceNL_of_no_newline (s : String) (h : '\n' ∉ s.data) :
    pyReplaceNL s = s := by
  unfold pyReplaceNL
  rw [flattenNL_of_no_newline s.data h]

theorem pySliceFrom_experiment (s : String) :
    pySliceFrom ("experiment_" ++ s) 11 = s := by
  unfold pySliceFrom
  have hd : ("experiment_" ++ s).data = "experiment_".data ++ s.data := by
    cases s; rfl
  have hl : ("experiment_".data).length = 11 := by decide
  rw [hd, ← hl, List.drop_left]

theorem pyStartsWith_experiment (s : String) :
    pyStartsWith ("experiment_" ++ s) "experiment_" = true := by
  unfold pyStartsWith
  have hd : ("experiment_" ++ s).data = "experiment_".data ++ s.data := by
    cases s; rfl
  rw [hd, List.isPrefixOf_iff_prefix]
  exact List.prefix_append _ _

theorem gate_dict_from_list_ne_indexError (ins : List PyVal) (h : 3 ≤ ins.length) :
    gate_dict_from_list ins ≠ GDRes.indexError := by
  rcases ins with _ | ⟨v0, _ | ⟨v1, _ | ⟨v2, rest⟩⟩⟩
  · simp at h
  · simp at h
  · simp at h
  · simp only [gate_dict_from_list]
    rcases pyStrField v0 with _ | n <;> rcases pyNumList v1 with _ | w <;>
      rcases pyNumList v2 with _ | p <;> simp

theorem checkInsLoop_total (sp : Spooler) (acc : String × Bool)
    (l : List (List PyVal)) (h : ∀ ins ∈ l, 3 ≤ ins.length) :
    ∃ r, checkInsLoop sp acc l = .ok r := by
  induction l generalizing acc with
  | nil => exact ⟨acc, rfl⟩
  | cons ins rest ih =>
    have h3 : 3 ≤ ins.length := h ins (List.mem_cons_self ins rest)
    have hrest : ∀ i ∈ rest, 3 ≤ i.length :=
      fun i hi => h i (List.mem_cons_of_mem _ hi)
    rcases hg : gate_dict_from_list ins with _ | m | g
    · exact absurd hg (gate_dict_from_list_ne_indexError ins h3)
    · exact ⟨("Error in instruction " ++ m, false),
        by simp only [checkInsLoop, hg]⟩
    · rcases hl : sp.ins_schema_dict.lookup g.name with _ | check
      · exact ⟨("Instruction not allowed.", false),
          by simp only [checkInsLoop, hg, hl]⟩
      · rcases hc : check g with _ | m
        · obtain ⟨r, hr⟩ := ih (acc.1, true) hrest
          exact ⟨r, by simp only [checkInsLoop, hg, hl, hc]; exact hr⟩
        · exact ⟨("Error in instruction " ++ m, false),
            by simp only [checkInsLoop, hg, hl, hc]⟩

theorem check_instructions_total (sp : Spooler) (l : List (List PyVal))
    (h : ∀ ins ∈ l, 3 ≤ ins.length) :
    ∃ r, check_instructions sp l = .ok r :=
  checkInsLoop_total sp ("", false) l h

theorem checkJsonLoop_total (sp : Spooler) (acc : String × Bool)
    (jd : List (String × ExperVal))
    (h : ∀ p ∈ jd, ∀ ins ∈ p.2.instructions, 3 ≤ ins.length) :
    ∃ r, checkJsonLoop sp acc jd = .ok r := by
  induction jd generalizing acc with
  | nil => exact ⟨acc, rfl⟩
  | cons q rest ih =>
    have hq : ∀ ins ∈ q.2.instructions, 3 ≤ ins.length :=
      h q (List.mem_cons_self q rest)
    have hrest : ∀ p ∈ rest, ∀ ins ∈ p.2.instructions, 3 ≤ ins.length :=
      fun p hp => h p (List.mem_cons_of_mem _ hp)
    obtain ⟨q1, q2⟩ := q
    by_cases hn : expNameOk sp q1
    · rcases hce : check_experiment sp q2 with ⟨err, ok⟩
      cases ok
      · exact ⟨(err, false), by simp only [checkJsonLoop, if_pos hn, hce]⟩
      · obtain ⟨⟨e, ok2⟩, hr⟩ := check_instructions_total sp q2.instructions hq
        cases ok2
        · exact ⟨(e, false), by simp only [checkJsonLoop, if_pos hn, hce, hr]⟩
        · obtain ⟨r, hrec⟩ := ih (e, true) hrest
          exact ⟨r, by simp only [checkJsonLoop, if_pos hn, hce, hr]; exact hrec⟩
    · exact ⟨("Wrong experiment name or too many experiments", false),
        by simp only [checkJsonLoop, if_neg hn]⟩

theorem check_json_dict_total (sp : Spooler) (jd : List (String × ExperVal))
    (h : ∀ p ∈ jd, ∀ ins ∈ p.2.instructions, 3 ≤ ins.length) :
    ∃ r, check_json_dict sp jd = .ok r := by
  obtain ⟨r, hr⟩ :=
    checkJsonLoop_total sp ("No instructions received.", false) jd h
  exact ⟨_, by rw [check_json_dict, hr]; rfl⟩

/-! ### Storage lemmas -/

theorem splitChar_ne_nil (sep : Char) (l : List Char) : splitChar sep l ≠ [] := by
  cases l with
  | nil => simp [splitChar]
  | cons c rest =>
    simp only [splitChar]
    rcases splitChar sep rest with _ | ⟨g, gs⟩
    · simp
    · by_cases hc : c = sep <;> simp [hc]

theorem splitChar_of_not_mem (sep : Char) (l : List Char) (h : sep ∉ l) :
    splitChar sep l = [l] := by
  induction l with
  | nil => rfl
  | cons c rest ih =>
    simp only [List.mem_cons, not_or] at h
    simp only [splitChar, ih h.2]
    rw [if_neg (fun hc => h.1 hc.symm)]

theorem splitChar_append (sep : Char) (l₁ l₂ : List Char) (h : sep ∉ l₁) :
    splitChar sep (l₁ ++ sep :: l₂) = l₁ :: splitChar sep l₂ := by
  induction l₁ with
  | nil =>
    simp only [List.nil_append, splitChar]
    rcases hs : splitChar sep l₂ with _ | ⟨g, gs⟩
    · exact absurd hs (splitChar_ne_nil sep l₂)
    · simp
  | cons c rest ih =>
    simp only [List.mem_cons, not_or] at h
    simp only [List.cons_append, splitChar, List.append_eq, ih h.2]
    rw [if_neg (fun hc : c = sep => h.1 hc.symm)]

theorem joinChar_single (c : Char) (l : List Char) : joinChar c [l] = l := by
  simp [joinChar, List.intercalate]

theorem joinChar_pair (c : Char) (l₁ l₂ : List Char) :
    joinChar c [l₁, l₂] = l₁ ++ c :: l₂ := by
  simp [joinChar, List.intercalate]

theorem dbCollOf_two (seg b : List Char) (hseg : '/' ∉ seg) (hb : '/' ∉ b) :
    dbCollOf (seg ++ '/' :: b) = (seg, b) := by
  unfold dbCollOf
  rw [splitChar_append _ _ _ hseg, splitChar_of_not_mem _ _ hb]
  simp [joinChar_single]

theorem dbCollOf_three (s1 s2 b : List Char) (h1 : '/' ∉ s1) (h2 : '/' ∉ s2)
    (hb : '/' ∉ b) :
    dbCollOf (s1 ++ '/' :: (s2 ++ '/' :: b)) = (s1, s2 ++ '.' :: b) := by
  unfold dbCollOf
  rw [splitChar_append _ _ _ h1, splitChar_append _ _ _ h2,
    splitChar_of_not_mem _ _ hb]
  simp [joinChar_pair]

theorem dbColl_results (b : String) (hb : '/' ∉ b.data) :
    dbColl ("results/" ++ b) = ("results".data, b.data) := by
  have h1 : ("results/" ++ b).data = "results".data ++ '/' :: b.data := by
    cases b; rfl
  show dbCollOf (("results/" ++ b).data) = _
  rw [h1, dbCollOf_two _ _ (by decide) hb]

theorem dbColl_status (b : String) (hb : '/' ∉ b.data) :
    dbColl ("status/" ++ b) = ("status".data, b.data) := by
  have h1 : ("status/" ++ b).data = "status".data ++ '/' :: b.data := by
    cases b; rfl
  show dbCollOf (("status/" ++ b).data) = _
  rw [h1, dbCollOf_two _ _ (by decide) hb]

theorem dbColl_finished (b : String) (hb : '/' ∉ b.data) :
    dbColl ("jobs/finished/" ++ b) =
      ("jobs".data, "finished".data ++ '.' :: b.data) := by
  have h1 : ("jobs/finished/" ++ b).data =
      "jobs".data ++ '/' :: ("finished".data ++ '/' :: b.data) := by
    cases b; rfl
  show dbCollOf (("jobs/finished/" ++ b).data) = _
  rw [h1, dbCollOf_three _ _ _ (by decide) (by decide) hb]

theorem dbColl_queued (b : String) (hb : '/' ∉ b.data) :
    dbColl ("jobs/queued/" ++ b) =
      ("jobs".data, "queued".data ++ '.' :: b.data) := by
  have h1 : ("jobs/queued/" ++ b).data =
      "jobs".data ++ '/' :: ("queued".data ++ '/' :: b.data) := by
    cases b; rfl
  show dbCollOf (("jobs/queued/" ++ b).data) = _
  rw [h1, dbCollOf_three _ _ _ (by decide) (by decide) hb]

theorem prodNeFst {α β : Type} {a c : α} {b d : β} (h : a ≠ c) :
    (a, b) ≠ (c, d) := fun he => h (congrArg Prod.fst he)

theorem prodNeSnd {α β : Type} {a c : α} {b d : β} (h : b ≠ d) :
    (a, b) ≠ (c, d) := fun he => h (congrArg Prod.snd he)

theorem ne_of_head (c₁ c₂ : Char) (l₁ l₂ : List Char) (h : c₁ ≠ c₂) :
    c₁ :: l₁ ≠ c₂ :: l₂ := by
  intro he; injection he with h1 _; exact h h1

theorem find?_map_replace (l : List ((List Char × List Char) × Coll))
    (k : List Char × List Char) (c : Coll)
    (hf : (l.find? (fun e => e.1 = k)).isSome = true) :
    (l.map (fun e => if e.1 = k then (k, c) else e)).find? (fun e => e.1 = k)
      = some (k, c) := by
  induction l with
  | nil => simp at hf
  | cons e rest ih =>
    by_cases he : e.1 = k
    · simp [he]
    · rw [List.find?_cons_of_neg _ (by simp [he])] at hf
      rw [List.map_cons, if_neg he,
        List.find?_cons_of_neg _ (by simp [he])]
      exact ih hf

theorem find?_map_replace_other (l : List ((List Char × List Char) × Coll))
    (k k' : List Char × List Char) (c : Coll) (hkk : k' ≠ k) :
    (l.map (fun e => if e.1 = k then (k, c) else e)).find? (fun e => e.1 = k')
      = l.find? (fun e => e.1 = k') := by
  induction l with
  | nil => rfl
  | cons e rest ih =>
    by_cases he : e.1 = k
    · have h2 : ¬ (e.1 = k') := fun hh => hkk (hh.symm.trans he)
      rw [List.map_cons, if_pos he,
        List.find?_cons_of_neg _ (by simp [Ne.symm hkk]),
        List.find?_cons_of_neg _ (by simp [h2])]
      exact ih
    · rw [List.map_cons, if_neg he]
      by_cases hp : e.1 = k'
      · rw [List.find?_cons_of_pos _ (by simp [hp]),
          List.find?_cons_of_pos _ (by simp [hp])]
      · rw [List.find?_cons_of_neg _ (by simp [hp]),
          List.find?_cons_of_neg _ (by simp [hp])]
        exact ih

theorem find?_append_right_none (l : List ((List Char × List Char) × Coll))
    (k : List Char × List Char) (c : Coll)
    (hf : l.find? (fun e => e.1 = k) = none) :
    (l ++ [(k, c)]).find? (fun e => e.1 = k) = some (k, c) := by
  rw [List.find?_append, hf]
  simp

theorem find?_append_single_other (l : List ((List Char × List Char) × Coll))
    (k k' : List Char × List Char) (c : Coll) (hkk : k' ≠ k) :
    (l ++ [(k, c)]).find? (fun e => e.1 = k') = l.find? (fun e => e.1 = k') := by
  rw [List.find?_append]
  cases hf : l.find? (fun e => e.1 = k') with
  | some e => rfl
  | none => simp [Ne.symm hkk]

theorem getColl_setColl_same (st : MongoState) (k : List Char × List Char)
    (c : Coll) : getColl (setColl st k c) k = c := by
  unfold getColl setColl
  by_cases hf : (st.colls.find? (fun e => e.1 = k)).isSome
  · rw [if_pos hf]
    show ((List.find? _ _).map Prod.snd).getD [] = c
    rw [find?_map_replace _ _ _ hf]
    rfl
  · rw [if_neg hf]
    have hn : st.colls.find? (fun e => e.1 = k) = none :=
      Option.not_isSome_iff_eq_none.mp hf
    show ((List.find? _ _).map Prod.snd).getD [] = c
    rw [find?_append_right_none _ _ _ hn]
    rfl

theorem getColl_setColl_other (st : MongoState) (k k' : List Char × List Char)
    (c : Coll) (hkk : k' ≠ k) :
    getColl (setColl st k c) k' = getColl st k' := by
  unfold getColl setColl
  by_cases hf : (st.colls.find? (fun e => e.1 = k)).isSome
  · rw [if_pos hf]
    show ((List.find? _ _).map Prod.snd).getD [] = _
    rw [find?_map_replace_other _ _ _ _ hkk]
  · rw [if_neg hf]
    show ((List.find? _ _).map Prod.snd).getD [] = _
    rw [find?_append_single_other _ _ _ _ hkk]

theorem docGet_append_of_none (c : Coll) (id : String) (d : Doc)
    (h : docGet c id = none) : docGet (c ++ [(id, d)]) id = some d := by
  induction c with
  | nil => simp [docGet]
  | cons e rest ih =>
    obtain ⟨i, dd⟩ := e
    simp only [docGet] at h ⊢
    by_cases hi : i = id
    · rw [if_pos hi] at h; cases h
    · rw [if_neg hi] at h ⊢
      exact ih h

theorem docGet_none_of_not_mem (c : Coll) (id : String)
    (h : id ∉ c.map Prod.fst) : docGet c id = none := by
  induction c with
  | nil => rfl
  | cons e rest ih =>
    obtain ⟨i, dd⟩ := e
    simp only [List.map_cons, List.mem_cons, not_or] at h
    simp only [docGet]
    rw [if_neg (fun hi => h.1 hi.symm)]
    exact ih h.2

theorem docGet_isSome_of_mem (c : Coll) (id : String) (d : Doc)
    (h : (id, d) ∈ c) : (docGet c id).isSome = true := by
  induction c with
  | nil => cases h
  | cons e rest ih =>
    obtain ⟨i, dd⟩ := e
    simp only [docGet]
    by_cases hi : i = id
    · rw [if_pos hi]; rfl
    · rw [if_neg hi]
      rcases List.mem_cons.mp h with h1 | h1
      · cases h1; exact absurd rfl hi
      · exact ih h1

theorem docGet_docRemove_self (c : Coll) (id : String)
    (hnd : (c.map Prod.fst).Nodup) : docGet (docRemove c id) id = none := by
  induction c with
  | nil => rfl
  | cons e rest ih =>
    obtain ⟨i, dd⟩ := e
    simp only [List.map_cons, List.nodup_cons] at hnd
    simp only [docRemove]
    by_cases hi : i = id
    · rw [if_pos hi]
      exact docGet_none_of_not_mem rest id (hi ▸ hnd.1)
    · rw [if_neg hi]
      simp only [docGet]
      rw [if_neg hi]
      exact ih hnd.2

theorem docGet_docReplace_self (c : Coll) (id : String) (nd : Doc)
    (h : (docGet c id).isSome = true) :
    docGet (docReplace c id nd) id = some nd := by
  induction c with
  | nil => simp [docGet] at h
  | cons e rest ih =>
    obtain ⟨i, dd⟩ := e
    simp only [docGet] at h
    simp only [docReplace]
    by_cases hi : i = id
    · rw [if_pos hi]
      simp only [docGet]
      rw [if_pos hi]
    · rw [if_neg hi] at h
      rw [if_neg hi]
      simp only [docGet]
      rw [if_neg hi]
      exact ih h

theorem map_fst_docReplace (c : Coll) (id : String) (nd : Doc) :
    (docReplace c id nd).map Prod.fst = c.map Prod.fst := by
  induction c with
  | nil => rfl
  | cons e rest ih =>
    obtain ⟨i, dd⟩ := e
    simp only [docReplace]
    by_cases hi : i = id
    · rw [if_pos hi]
      simp [List.map_cons]
    · rw [if_neg hi]
      simp only [List.map_cons, ih]

theorem upload_ok (st : MongoState) (d : Doc) (p id : String)
    (hv : validObjectId id = true)
    (hfree : docGet (getColl st (dbColl p)) id = none) :
    upload st d p id =
      .ok (setColl st (dbColl p) (getColl st (dbColl p) ++ [(id, d)])) := by
  unfold upload insertOne
  rw [hv]
  simp [hfree]

theorem move_file_ok (st : MongoState) (sp fp id : String) (d : Doc)
    (hv : validObjectId id = true)
    (hfound : findOneById st sp id = some d)
    (hfree : docGet (getColl (move_file_mid st sp id) (dbColl fp)) id = none) :
    move_file st sp fp id =
      .ok (setColl (move_file_mid st sp id) (dbColl fp)
        (getColl (move_file_mid st sp id) (dbColl fp) ++ [(id, d)])) := by
  unfold move_file insertOne
  rw [hv]
  simp [hfound, hfree]

theorem update_file_ok (st : MongoState) (d : Doc) (p id : String)
    (hv : validObjectId id = true)
    (hsome : (docGet (getColl st (dbColl p)) id).isSome = true) :
    update_file st d p id =
      .ok (setColl st (dbColl p) (docReplace (getColl st (dbColl p)) id d)) := by
  unfold update_file
  rw [hv]
  simp [hsome]

theorem dropWhileSlash_cons (a : Char) (l : List Char) (ha : a ≠ '/') :
    (a :: l).dropWhile (fun x => x = '/') = a :: l := by
  rw [List.dropWhile_cons, if_neg (by simp [ha])]

theorem pyStripSlash_eq_self (s : String) (a : Char) (l : List Char)
    (hd : s.data = a :: l) (ha : a ≠ '/') (c : Char) (bs : List Char)
    (hrev : s.data.reverse = c :: bs) (hc : c ≠ '/') :
    pyStripSlash s = s := by
  unfold pyStripSlash
  rw [hd, dropWhileSlash_cons a l ha, ← hd, hrev, dropWhileSlash_cons c bs hc,
    ← hrev, List.reverse_reverse]

theorem pyStripSlash_queue (b : String) (hb : '/' ∉ b.data) (hne : b.data ≠ []) :
    pyStripSlash ("jobs/queued/" ++ b) = "jobs/queued/" ++ b := by
  have hd : ("jobs/queued/" ++ b).data
      = 'j' :: ("obs/queued/".data ++ b.data) := by
    cases b; rfl
  cases hrev : b.data.reverse with
  | nil =>
    exact absurd (by rw [← List.reverse_reverse b.data, hrev]; rfl) hne
  | cons c bs =>
    have hcb : c ∈ b.data := by
      rw [← List.mem_reverse, hrev]
      exact List.mem_cons_self _ _
    have hc : c ≠ '/' := fun he => hb (he ▸ hcb)
    have hrev2 : ("jobs/queued/" ++ b).data.reverse
        = c :: (bs ++ ("obs/queued/".data).reverse ++ ['j']) := by
      rw [hd, List.reverse_cons, List.reverse_append _ _, hrev]
      simp
    exact pyStripSlash_eq_self _ 'j' _ hd (by decide) c _ hrev2 hc

theorem checkJsonLoop_reject_name (sp : Spooler) (k : String) (body : ExperVal)
    (rest pre : List (String × ExperVal)) (acc : String × Bool)
    (hpre : ∀ p ∈ pre, expFullPass sp p) (hk : expNameOk sp k = false) :
    checkJsonLoop sp acc (pre ++ (k, body) :: rest) =
      .ok ("Wrong experiment name or too many experiments", false) := by
  induction pre generalizing acc with
  | nil =>
    simp [checkJsonLoop, hk]
  | cons q pre ih =>
    obtain ⟨h1, h2, e, h3⟩ := hpre q (List.mem_cons_self _ _)
    obtain ⟨q1, q2⟩ := q
    have hpre2 : ∀ p ∈ pre, expFullPass sp p :=
      fun p hp => hpre p (List.mem_cons_of_mem _ hp)
    simp only [List.cons_append, checkJsonLoop, if_pos h1, check_experiment,
      h2, h3]
    exact ih (e, true) hpre2

theorem checkInsLoop_not_allowed (sp : Spooler) (ins : List PyVal) (g : GateDict)
    (rest pre : List (List PyVal)) (acc : String × Bool)
    (hpre : ∀ i ∈ pre, insAccepted sp i)
    (hg : gate_dict_from_list ins = .ok g)
    (hname : sp.ins_schema_dict.lookup g.name = none) :
    checkInsLoop sp acc (pre ++ ins :: rest) =
      .ok ("Instruction not allowed.", false) := by
  induction pre generalizing acc with
  | nil => simp only [List.nil_append, checkInsLoop, hg, hname]
  | cons j pre ih =>
    obtain ⟨g2, check, hj1, hj2, hj3⟩ := hpre j (List.mem_cons_self _ _)
    simp only [List.cons_append, checkInsLoop, hj1, hj2, hj3]
    exact ih (acc.1, true)
      (fun i hi => hpre i (List.mem_cons_of_mem _ hi))

/-! ## Claims -/

/-- C1, counterexample: a job whose experiment passes the name and
experiment-level checks but whose instruction list contains the
2-element record `["test", [1, 2]]` makes `add_job` raise `IndexError`
(`gate_dict_from_list` reads `inst_list[2]` and `check_instructions`
only catches `ValidationError`), contradicting the claim that `add_job`
never raises for malformed input. -/
theorem claim1_counterexample :
    add_job demoSpooler
      [("experiment_0",
        { instructions := [[.str "test", .list [.int 1, .int 2]]], meta := [] })]
      demoStatus = .error .indexError := by decide

/-- C1 (amended): `Spooler.add_job` never raises — every failure is
reported only through the returned status record — provided every entry
of every experiment's instruction list has at least 3 elements; an entry
with fewer than 3 elements makes `add_job` raise `IndexError`. -/
theorem claim1_add_job_total (sp : Spooler) (jd : List (String × ExperVal))
    (st : StatusMsgDict)
    (h : ∀ p ∈ jd, ∀ ins ∈ p.2.instructions, 3 ≤ ins.length) :
    ∃ out, add_job sp jd st = .ok out := by
  obtain ⟨⟨msg, ok⟩, hc⟩ := check_json_dict_total sp jd h
  cases ok
  · exact ⟨_, by simp only [add_job, hc, Bool.false_eq_true, if_false]; rfl⟩
  · rcases hd : sp.dimCheck jd with ⟨dmsg, dok⟩
    cases dok
    · exact ⟨_, by simp only [add_job, hc, if_true, hd]; rfl⟩
    · exact ⟨_, by simp only [add_job, hc, if_true, hd]; rfl⟩

/-- C1, witness for the amended claim at a concrete well-formed input. -/
theorem claim1_witness :
    ∃ out, add_job demoSpooler
      [("experiment_0",
        { instructions := [[.str "test", .list [.int 1, .int 2], .list []]],
          meta := [] })]
      demoStatus = .ok out :=
  claim1_add_job_total demoSpooler _ demoStatus (by decide)

/-- C5: `check_json_dict` checks each key against
`experiment_<N>` with `N` a non-negative (digit-string) integer bounded
by `n_max_experiments`: (1) `experiment_<digits>` with value within the
bound passes the name check; (2) a digit suffix beyond the bound fails
it; (3) `experiment_abc` and `exp_0` fail it; (4) the first key of the
job mapping failing the name check aborts the whole check with the
message `"Wrong experiment name or too many experiments"` and
`ok = false`, all earlier keys having fully passed. -/
theorem claim5_experiment_names :
    (∀ (sp : Spooler) (s : String), s.data ≠ [] →
        s.data.all Char.isDigit = true → pyInt s ≤ sp.n_max_experiments →
        expNameOk sp ("experiment_" ++ s) = true)
  ∧ (∀ (sp : Spooler) (s : String), sp.n_max_experiments < pyInt s →
        expNameOk sp ("experiment_" ++ s) = false)
  ∧ (∀ sp : Spooler,
        expNameOk sp "experiment_abc" = false ∧ expNameOk sp "exp_0" = false)
  ∧ (∀ (sp : Spooler) (k : String) (body : ExperVal)
        (pre rest : List (String × ExperVal)),
        (∀ p ∈ pre, expFullPass sp p) → expNameOk sp k = false →
        check_json_dict sp (pre ++ (k, body) :: rest) =
          .ok ("Wrong experiment name or too many experiments", false)) := by
  refine ⟨?_, ?_, ?_, ?_⟩
  · intro sp s hne hdig hle
    have hie : s.data.isEmpty = false := by
      cases hs : s.data with
      | nil => exact absurd hs hne
      | cons c l => rfl
    simp [expNameOk, pyStartsWith_experiment, pySliceFrom_experiment,
      pyIsDigit, hie, hdig, hle]
  · intro sp s hgt
    simp [expNameOk, pySliceFrom_experiment]
    intro _ _
    omega
  · intro sp
    constructor <;> simp [expNameOk, pyStartsWith, pyIsDigit, pySliceFrom]
  · intro sp k body pre rest hpre hk
    rw [check_json_dict,
      checkJsonLoop_reject_name sp k body rest pre _ hpre hk]
    rfl

/-- C5, witness: the parts of `claim5_experiment_names` instantiated at
concrete inputs (bound 15, suffix `"0"` accepted, suffix `"16"`
rejected, and a job whose second key `"exp_1"` aborts the check after a
fully passing first experiment). -/
theorem claim5_witness :
    expNameOk demoSpooler "experiment_0" = true ∧
    expNameOk demoSpooler "experiment_16" = false ∧
    (expNameOk demoSpooler "experiment_abc" = false ∧
      expNameOk demoSpooler "exp_0" = false) ∧
    check_json_dict demoSpooler
      [("experiment_0",
        { instructions := [[.str "test", .list [.int 0], .list []]],
          meta := [] }),
       ("exp_1", { instructions := [], meta := [] })] =
      .ok ("Wrong experiment name or too many experiments", false) := by
  refine ⟨?_, ?_, claim5_experiment_names.2.2.1 demoSpooler, ?_⟩
  · have h := claim5_experiment_names.1 demoSpooler "0" (by decide) (by decide)
      (by decide)
    exact h
  · have h := claim5_experiment_names.2.1 demoSpooler "16" (by decide)
    exact h
  · have h := claim5_experiment_names.2.2.2 demoSpooler "exp_1"
      { instructions := [], meta := [] }
      [("experiment_0",
        { instructions := [[.str "test", .list [.int 0], .list []]],
          meta := [] })] []
      (by intro p hp; fin_cases hp
          exact ⟨by decide, by decide, "", by decide⟩)
      (by decide)
    exact h

/-- C6, counterexample: the record `["nope", [0], "bad"]` has an
unregistered name, yet `check_instructions` rejects it with the message
`"Error in instruction <pydantic text>"`, not
`"Instruction not allowed."`: the `GateDict` parse of the wires/params
runs first and its `ValidationError` wins, contradicting "regardless of
the instruction's wires and parameters". -/
theorem claim6_counterexample :
    List.lookup "nope" demoSpooler.ins_schema_dict = none ∧
    check_instructions demoSpooler [[.str "nope", .list [.int 0], .str "bad"]] =
      .ok ("Error in instruction " ++ gdValidationMsg, false) ∧
    ("Error in instruction " ++ gdValidationMsg
      ≠ "Instruction not allowed.") := by
  refine ⟨rfl, by decide, by decide⟩

/-- C6 (amended): an instruction record that parses into a `GateDict`
(3 elements of the right shape) whose name is not among the backend's
registered instruction names is rejected by `check_instructions` with
exactly `"Instruction not allowed."` and `ok = false`, regardless of the
values of its wires and parameters, whatever accepted instructions
precede or records follow it. -/
theorem claim6_instruction_not_allowed (sp : Spooler) (ins : List PyVal)
    (g : GateDict) (pre rest : List (List PyVal))
    (hpre : ∀ i ∈ pre, insAccepted sp i)
    (hg : gate_dict_from_list ins = .ok g)
    (hname : sp.ins_schema_dict.lookup g.name = none) :
    check_instructions sp (pre ++ ins :: rest) =
      .ok ("Instruction not allowed.", false) :=
  checkInsLoop_not_allowed sp ins g rest pre ("", false) hpre hg hname

/-- C6, witness: a well-typed record with unregistered name `"nope"`,
arbitrary wires `[7]` and params `[1, 2]`, after an accepted `"test"`
instruction. -/
theorem claim6_witness :
    check_instructions demoSpooler
      [[.str "test", .list [.int 0], .list []],
       [.str "nope", .list [.int 7], .list [.int 1, .int 2]]] =
      .ok ("Instruction not allowed.", false) :=
  claim6_instruction_not_allowed demoSpooler
    [.str "nope", .list [.int 7], .list [.int 1, .int 2]]
    { name := "nope", wires := [7], params := [1, 2] }
    [[.str "test", .list [.int 0], .list []]] []
    (by intro i hi; fin_cases hi
        exact ⟨{ name := "test", wires := [0], params := [] },
          fun _ => none, by decide, rfl, rfl⟩)
    (by decide) rfl

/-- C9: whenever `add_job` returns normally, the returned `ResultDict`
carries `job_id` equal to the input status record's `job_id`,
`success = true` and `status = "finished"` — also on the
validation-failure and dimension-failure paths, where the returned
status record is `ERROR` — and on those failure paths the `results`
list is empty. -/
theorem claim9_result_shell (sp : Spooler) (jd : List (String × ExperVal))
    (st : StatusMsgDict) (r : ResultDict) (s2 : StatusMsgDict)
    (h : add_job sp jd st = .ok (r, s2)) :
    r.job_id = st.job_id ∧ r.success = true ∧ r.status = "finished" ∧
      (s2.status = "ERROR" → r.results = []) := by
  unfold add_job at h
  rcases hc : check_json_dict sp jd with e | ⟨msg, ok⟩
  · rw [hc] at h; cases h
  · rw [hc] at h
    cases ok
    · simp only [Bool.false_eq_true, if_false] at h
      rw [Except.ok.injEq, Prod.mk.injEq] at h
      obtain ⟨h1, h2⟩ := h
      subst h1; subst h2
      exact ⟨rfl, rfl, rfl, fun _ => rfl⟩
    · simp only [if_true] at h
      rcases hd : sp.dimCheck jd with ⟨dmsg, dok⟩
      rw [hd] at h
      cases dok
      · rw [Except.ok.injEq, Prod.mk.injEq] at h
        obtain ⟨h1, h2⟩ := h
        subst h1; subst h2
        exact ⟨rfl, rfl, rfl, fun _ => rfl⟩
      · rw [Except.ok.injEq, Prod.mk.injEq] at h
        obtain ⟨h1, h2⟩ := h
        subst h1; subst h2
        refine ⟨rfl, rfl, rfl, fun hco => ?_⟩
        exact ((by decide : ¬ ("DONE" = "ERROR")) hco).elim

/-- C9, witness: `claim9_result_shell` applied to a run of `add_job`
on the empty job (a validation-failure path). -/
theorem claim9_witness :
    ({ display_name := "", backend_version := "0.0.1", job_id := "Test_ID",
       success := true, status := "finished", header := [],
       results := [] } : ResultDict).job_id = demoStatus.job_id ∧
    ({ display_name := "", backend_version := "0.0.1", job_id := "Test_ID",
       success := true, status := "finished", header := [],
       results := [] } : ResultDict).success = true ∧
    ({ display_name := "", backend_version := "0.0.1", job_id := "Test_ID",
       success := true, status := "finished", header := [],
       results := [] } : ResultDict).status = "finished" ∧
    (({ job_id := "Test_ID", status := "ERROR",
        detail := "None; Failed json sanity check. File will be deleted. Error message : No instructions received.",
        error_message := "None; Failed json sanity check. File will be deleted. Error message : No instructions received." } :
        StatusMsgDict).status = "ERROR" →
      ({ display_name := "", backend_version := "0.0.1", job_id := "Test_ID",
         success := true, status := "finished", header := [],
         results := [] } : ResultDict).results = []) :=
  claim9_result_shell demoSpooler [] demoStatus _ _ (by decide)

/-- C10: on the empty job mapping, `check_json_dict` returns
`("No instructions received.", false)`, and `add_job` consequently marks
the job `ERROR` (returning the result shell unchanged). -/
theorem claim10_empty_job :
    (∀ sp : Spooler,
      check_json_dict sp [] = .ok ("No instructions received.", false))
  ∧ (∀ (sp : Spooler) (st : StatusMsgDict),
      add_job sp [] st =
        .ok ({ display_name := sp.display_name,
               backend_version := sp.version, job_id := st.job_id,
               success := true, status := "finished", header := [],
               results := [] },
             { st with
                detail := st.detail ++
                  "; Failed json sanity check. File will be deleted. Error message : "
                  ++ "No instructions received.",
                error_message := st.error_message ++
                  "; Failed json sanity check. File will be deleted. Error message : "
                  ++ "No instructions received.",
                status := "ERROR" })) :=
  ⟨fun _ => rfl, fun _ _ => rfl⟩

/-- C7, counterexample: on a state with the artifact in `jobs/running`,
`move_file` computes `insertOne` applied to the state after the
`delete_one` (`move_file_mid`), and in that intermediate state the
artifact exists neither at the source nor at the destination — the
delete is performed before, not after, the write, and the
neither-location state is reached during the move. -/
theorem claim7_counterexample :
    present runningState "jobs/running" sampleId = true ∧
    move_file runningState "jobs/running" "jobs/finished/alice" sampleId =
      insertOne (move_file_mid runningState "jobs/running" sampleId)
        "jobs/finished/alice" sampleId sampleDoc ∧
    present (move_file_mid runningState "jobs/running" sampleId)
      "jobs/running" sampleId = false ∧
    present (move_file_mid runningState "jobs/running" sampleId)
      "jobs/finished/alice" sampleId = false := by
  exact ⟨by decide, by decide, by decide, by decide⟩

/-- C7 (amended): `move_file` performs find, then delete-from-source,
then insert-at-destination.  The artifact is never left in both
locations at the end, but the intermediate state between the delete and
the insert has it in neither location; after a successful move it
exists only at the destination. -/
theorem claim7_move_file_delete_before_insert (st : MongoState)
    (sp fp id : String) (d : Doc)
    (hv : validObjectId id = true)
    (hfound : findOneById st sp id = some d)
    (hnd : ((getColl st (dbColl sp)).map Prod.fst).Nodup)
    (hkey : dbColl sp ≠ dbColl fp)
    (hfree : docGet (getColl st (dbColl fp)) id = none) :
    (present (move_file_mid st sp id) sp id = false ∧
     present (move_file_mid st sp id) fp id = false) ∧
    move_file st sp fp id = insertOne (move_file_mid st sp id) fp id d ∧
    ∃ st2, move_file st sp fp id = .ok st2 ∧
      present st2 fp id = true ∧ present st2 sp id = false := by
  have hmid1 : getColl (move_file_mid st sp id) (dbColl sp)
      = docRemove (getColl st (dbColl sp)) id :=
    getColl_setColl_same st (dbColl sp) _
  have hmid2 : getColl (move_file_mid st sp id) (dbColl fp)
      = getColl st (dbColl fp) :=
    getColl_setColl_other st (dbColl sp) (dbColl fp) _ (Ne.symm hkey)
  have hremove : docGet (docRemove (getColl st (dbColl sp)) id) id = none :=
    docGet_docRemove_self _ _ hnd
  have hfree2 : docGet (getColl (move_file_mid st sp id) (dbColl fp)) id
      = none := by rw [hmid2]; exact hfree
  have e1 : present (move_file_mid st sp id) sp id = false := by
    unfold present findOneById
    rw [hmid1, hremove]
    rfl
  have e2 : present (move_file_mid st sp id) fp id = false := by
    unfold present findOneById
    rw [hfree2]
    rfl
  have hmv := move_file_ok st sp fp id d hv hfound hfree2
  refine ⟨⟨e1, e2⟩, by simp [move_file, hv, hfound], ⟨_, hmv, ?_, ?_⟩⟩
  · unfold present findOneById
    rw [getColl_setColl_same, docGet_append_of_none _ _ _ hfree2]
    rfl
  · unfold present findOneById
    rw [getColl_setColl_other _ _ _ _ hkey, hmid1, hremove]
    rfl

/-- C7, witness: the amended claim at a concrete state with one job in
`jobs/running`, moved to `jobs/finished/alice`. -/
theorem claim7_witness :
    (present (move_file_mid runningState "jobs/running" sampleId)
        "jobs/running" sampleId = false ∧
     present (move_file_mid runningState "jobs/running" sampleId)
        "jobs/finished/alice" sampleId = false) ∧
    move_file runningState "jobs/running" "jobs/finished/alice" sampleId =
      insertOne (move_file_mid runningState "jobs/running" sampleId)
        "jobs/finished/alice" sampleId sampleDoc ∧
    ∃ st2, move_file runningState "jobs/running" "jobs/finished/alice"
        sampleId = .ok st2 ∧
      present st2 "jobs/finished/alice" sampleId = true ∧
      present st2 "jobs/running" sampleId = false :=
  claim7_move_file_delete_before_insert runningState "jobs/running"
    "jobs/finished/alice" sampleId sampleDoc (by decide) (by decide)
    (by decide) (by decide) (by decide)

/-- C8: `get_file_content` surfaces a malformed job id (bson `InvalidId`
re-raised) and an absent job id as the same `FileNotFoundError` class,
never as an internal fault; and `get_status` turns both cases into a
returned status record with `status = "ERROR"` rather than raising. -/
theorem claim8_get_status_error :
    (∀ (st : MongoState) (p jid : String), validObjectId jid = false →
      get_file_content st p jid = .error (.fileNotFound
        ("The job_id " ++ jid ++ " is not valid. Please check the job_id.")))
  ∧ (∀ (st : MongoState) (p jid : String), validObjectId jid = true →
      findOneById st p jid = none →
      get_file_content st p jid = .error (.fileNotFound
        ("Could not find a file under " ++ p ++ " with the id " ++ jid
          ++ ".")))
  ∧ (∀ (st : MongoState) (dn un jid : String),
      validObjectId jid = false ∨ findOneById st ("status/" ++ dn) jid = none →
      ∃ m, get_status st dn un jid =
        .ok { job_id := jid, status := "ERROR",
              detail := "The job_id is not valid.", error_message := m }) := by
  refine ⟨?_, ?_, ?_⟩
  · intro st p jid hv
    unfold get_file_content
    rw [hv]
    rfl
  · intro st p jid hv hnone
    unfold get_file_content
    rw [hv, hnone]
    rfl
  · intro st dn un jid hcase
    have hgfc : ∃ m, get_file_content st ("status/" ++ dn) jid
        = .error (.fileNotFound m) := by
      by_cases hv : validObjectId jid
      · rcases hcase with hv2 | hnone
        · simp [hv] at hv2
        · exact ⟨"Could not find a file under " ++ ("status/" ++ dn)
              ++ " with the id " ++ jid ++ ".",
            by unfold get_file_content; rw [hv, hnone]; rfl⟩
      · have hv2 : validObjectId jid = false := by
          cases hb : validObjectId jid
          · rfl
          · exact absurd hb hv
        exact ⟨"The job_id " ++ jid ++ " is not valid. Please check the job_id.",
          by unfold get_file_content; rw [hv2]; rfl⟩
    obtain ⟨m, hm⟩ := hgfc
    exact ⟨m, by unfold get_status; rw [hm]⟩

/-- C8, witness: a malformed id (`"nope"`) and an absent valid id
against the empty store. -/
theorem claim8_witness :
    get_file_content (⟨[]⟩ : MongoState) "status/alice" "nope" =
      .error (.fileNotFound
        ("The job_id " ++ "nope" ++ " is not valid. Please check the job_id.")) ∧
    get_file_content (⟨[]⟩ : MongoState) "status/alice" sampleId =
      .error (.fileNotFound
        ("Could not find a file under " ++ "status/alice" ++ " with the id "
          ++ sampleId ++ ".")) ∧
    ∃ m, get_status (⟨[]⟩ : MongoState) "alice" "user" sampleId =
      .ok { job_id := sampleId, status := "ERROR",
            detail := "The job_id is not valid.", error_message := m } :=
  ⟨claim8_get_status_error.1 ⟨[]⟩ "status/alice" "nope" (by decide),
   claim8_get_status_error.2.1 ⟨[]⟩ "status/alice" sampleId (by decide)
     (by decide),
   claim8_get_status_error.2.2 ⟨[]⟩ "alice" "user" sampleId
     (Or.inr (by decide))⟩

/-- C3, counterexample: on an empty queue, `get_next_job_in_queue`
returns `{"job_id": 0, "job_json_path": "None"}` — the `job_id` field is
the integer `0`, not the string `"None"` (the `"None"` sits in the
`job_json_path` field); no queue-check timestamp is stamped (the
function only lists and moves). -/
theorem claim3_counterexample :
    get_next_job_in_queue (⟨[]⟩ : MongoState) "alice" =
      .ok ({ job_id := .int 0, job_json_path := "None" }, (⟨[]⟩ : MongoState)) ∧
    PyVal.int 0 ≠ PyVal.str "None" :=
  ⟨by decide, by decide⟩

/-- C3 (amended): on an empty queue `get_next_job_in_queue` returns the
sentinel `{"job_id": 0, "job_json_path": "None"}` (integer `0` in
`job_id`, the string `"None"` in `job_json_path`) and leaves the state
unchanged; on a non-empty queue it takes the first entry in enumeration
order, moves that job from `jobs/queued/<backend_name>` to
`jobs/running`, and returns the job id with its new location
`"jobs/running"`.  No queue-check timestamp is stamped. -/
theorem claim3_get_next_job_in_queue :
    (∀ (st : MongoState) (b : String),
      get_file_queue st ("jobs/queued/" ++ b) = [] →
      get_next_job_in_queue st b =
        .ok ({ job_id := .int 0, job_json_path := "None" }, st))
  ∧ (∀ (st : MongoState) (b j : String) (rest : List String),
      get_file_queue st ("jobs/queued/" ++ b) = j :: rest →
      validObjectId j = true → '/' ∉ b.data → b.data ≠ [] →
      ((getColl st (dbColl ("jobs/queued/" ++ b))).map Prod.fst).Nodup →
      docGet (getColl st (dbColl "jobs/running")) j = none →
      ∃ st2, get_next_job_in_queue st b =
          .ok ({ job_id := .str j, job_json_path := "jobs/running" }, st2) ∧
        present st2 "jobs/running" j = true ∧
        present st2 ("jobs/queued/" ++ b) j = false) := by
  constructor
  · intro st b hq
    unfold get_next_job_in_queue
    rw [hq]
  · intro st b j rest hq hv hb hne hnd hrunfree
    have hstrip := pyStripSlash_queue b hb hne
    have hqco : (getColl st (dbColl ("jobs/queued/" ++ b))).map Prod.fst
        = j :: rest := by
      rw [← hq]
      unfold get_file_queue
      rw [hstrip]
    have hkq : dbColl ("jobs/queued/" ++ b)
        = ("jobs".data, "queued".data ++ '.' :: b.data) := dbColl_queued b hb
    have hkrun : dbColl "jobs/running" = ("jobs".data, "running".data) := by
      decide
    have hkey : dbColl ("jobs/queued/" ++ b) ≠ dbColl "jobs/running" := by
      rw [hkq, hkrun]
      exact prodNeSnd (ne_of_head 'q' 'r' _ _ (by decide))
    obtain ⟨e, cs, hcoll, hej, hcs⟩ :
        ∃ e cs, getColl st (dbColl ("jobs/queued/" ++ b)) = e :: cs ∧
          e.1 = j ∧ cs.map Prod.fst = rest := by
      cases hc : getColl st (dbColl ("jobs/queued/" ++ b)) with
      | nil => rw [hc] at hqco; cases hqco
      | cons e cs =>
        rw [hc, List.map_cons] at hqco
        injection hqco with h1 h2
        exact ⟨e, cs, rfl, h1, h2⟩
    have hfound : findOneById st ("jobs/queued/" ++ b) j = some e.2 := by
      unfold findOneById
      rw [hcoll]
      show docGet ((e.1, e.2) :: cs) j = some e.2
      simp only [docGet]
      rw [if_pos hej]
    have hfree2 : docGet (getColl
        (move_file_mid st ("jobs/queued/" ++ b) j) (dbColl "jobs/running")) j
        = none := by
      have h2 : getColl (move_file_mid st ("jobs/queued/" ++ b) j)
          (dbColl "jobs/running") = getColl st (dbColl "jobs/running") :=
        getColl_setColl_other st (dbColl ("jobs/queued/" ++ b))
          (dbColl "jobs/running") _ (Ne.symm hkey)
      rw [h2]
      exact hrunfree
    have hmv := move_file_ok st ("jobs/queued/" ++ b) "jobs/running" j e.2
      hv hfound hfree2
    refine ⟨setColl (move_file_mid st ("jobs/queued/" ++ b) j)
        (dbColl "jobs/running")
        (getColl (move_file_mid st ("jobs/queued/" ++ b) j)
          (dbColl "jobs/running") ++ [(j, e.2)]), ?_, ?_, ?_⟩
    · simp only [get_next_job_in_queue, hq, hmv]
    · unfold present findOneById
      rw [getColl_setColl_same, docGet_append_of_none _ _ _ hfree2]
      rfl
    · have h3 : getColl (move_file_mid st ("jobs/queued/" ++ b) j)
          (dbColl ("jobs/queued/" ++ b))
          = docRemove (getColl st (dbColl ("jobs/queued/" ++ b))) j :=
        getColl_setColl_same st (dbColl ("jobs/queued/" ++ b)) _
      unfold present findOneById
      rw [getColl_setColl_other _ _ _ _ hkey, h3,
        docGet_docRemove_self _ _ hnd]
      rfl

/-- C3, witness: the amended claim at the empty store (sentinel case)
and at a one-job queue for backend `alice`. -/
theorem claim3_witness :
    get_next_job_in_queue (⟨[]⟩ : MongoState) "alice" =
      .ok ({ job_id := .int 0, job_json_path := "None" }, (⟨[]⟩ : MongoState)) ∧
    ∃ st2, get_next_job_in_queue queuedState "alice" =
        .ok ({ job_id := .str sampleId, job_json_path := "jobs/running" },
          st2) ∧
      present st2 "jobs/running" sampleId = true ∧
      present st2 ("jobs/queued/" ++ "alice") sampleId = false :=
  ⟨claim3_get_next_job_in_queue.1 ⟨[]⟩ "alice" (by decide),
   claim3_get_next_job_in_queue.2 queuedState "alice" sampleId []
     (by decide) (by decide) (by decide) (by decide) (by decide) (by decide)⟩

/-- C4, counterexample: with a config for display name `alice` already
registered, a second `upload_config` with display name `alice` does not
fail with an `AlreadyExists`-class error — it returns normally and
replaces the stored config in place. -/
theorem claim4_counterexample :
    findConfigByDisplay configState "alice" = some (sampleId, aliceCfg) ∧
    upload_config configState aliceCfg2 "alice" "ffffffffffffffffffffffff" =
      .ok ⟨[(dbColl "backends/configs",
        [(sampleId, setField aliceCfg2 "display_name" (.str "alice"))])]⟩ :=
  ⟨by decide, by decide⟩

/-- C4 (amended): when a config with the given display name is already
registered, a second `upload_config` call with that display name
returns normally and updates the existing document in place (under its
stored `_id`, with `display_name` overwritten to the backend name); it
adds no new document and raises no `AlreadyExists` error. -/
theorem claim4_upload_config_updates (st : MongoState) (cfg : Doc)
    (b fresh fid : String) (d : Doc)
    (hfound : findConfigByDisplay st b = some (fid, d))
    (hv : validObjectId fid = true) :
    ∃ st2, upload_config st cfg b fresh = .ok st2 ∧
      getColl st2 (dbColl "backends/configs") =
        docReplace (getColl st (dbColl "backends/configs")) fid
          (setField cfg "display_name" (.str b)) ∧
      docGet (getColl st2 (dbColl "backends/configs")) fid =
        some (setField cfg "display_name" (.str b)) ∧
      (getColl st2 (dbColl "backends/configs")).map Prod.fst =
        (getColl st (dbColl "backends/configs")).map Prod.fst := by
  have hmem : ((fid, d) : String × Doc) ∈ getColl st (dbColl "backends/configs") :=
    List.mem_of_find?_eq_some hfound
  have hsome : (docGet (getColl st (dbColl "backends/configs")) fid).isSome
      = true := docGet_isSome_of_mem _ _ _ hmem
  have hupd := update_file_ok st (setField cfg "display_name" (.str b))
    "backends/configs" fid hv hsome
  refine ⟨setColl st (dbColl "backends/configs")
      (docReplace (getColl st (dbColl "backends/configs")) fid
        (setField cfg "display_name" (.str b))), ?_, ?_, ?_, ?_⟩
  · unfold upload_config
    rw [hfound]
    exact hupd
  · rw [getColl_setColl_same]
  · rw [getColl_setColl_same]
    exact docGet_docReplace_self _ _ _ hsome
  · rw [getColl_setColl_same]
    exact map_fst_docReplace _ _ _

/-- C4, witness: the amended claim at the concrete registered config. -/
theorem claim4_witness :
    ∃ st2, upload_config configState aliceCfg2 "alice"
        "ffffffffffffffffffffffff" = .ok st2 ∧
      getColl st2 (dbColl "backends/configs") =
        docReplace (getColl configState (dbColl "backends/configs")) sampleId
          (setField aliceCfg2 "display_name" (.str "alice")) ∧
      docGet (getColl st2 (dbColl "backends/configs")) sampleId =
        some (setField aliceCfg2 "display_name" (.str "alice")) ∧
      (getColl st2 (dbColl "backends/configs")).map Prod.fst =
        (getColl configState (dbColl "backends/configs")).map Prod.fst :=
  claim4_upload_config_updates configState aliceCfg2 "alice"
    "ffffffffffffffffffffffff" sampleId aliceCfg (by decide) (by decide)

/-- C2: `update_in_database`.  (1) With status `DONE` and a `None`
result, a `ValueError` (`InvalidArgument`-class) is raised and nothing
is written.  (2) With status `DONE` and a result, the result is written
to `results/<backend_name>`, the job is moved from `jobs/running` to
`jobs/finished/<backend_name>`, and the status record is written last,
after the move: the run decomposes as upload, then move, then the
status `update_file`, and in the state just before the status write the
move has already happened while the status collection is still
untouched.  (3) With status `ERROR`, the job is moved from
`jobs/running` to `jobs/deleted`, no result is written (the results
collection is unchanged), and the status record is written last. -/
theorem claim2_update_in_database :
    (∀ (st : MongoState) (s : StatusMsgDict) (jid b : String),
      s.status = "DONE" →
      update_in_database st none s jid b = .error (.valueError
        "The \x27result_dict\x27 argument cannot be None if the job is done."))
  ∧ (∀ (st : MongoState) (r : Doc) (s : StatusMsgDict) (jid b : String)
        (jdoc : Doc),
      s.status = "DONE" → validObjectId jid = true → '/' ∉ b.data →
      docGet (getColl st (dbColl ("results/" ++ b))) jid = none →
      findOneById st "jobs/running" jid = some jdoc →
      ((getColl st (dbColl "jobs/running")).map Prod.fst).Nodup →
      docGet (getColl st (dbColl ("jobs/finished/" ++ b))) jid = none →
      (docGet (getColl st (dbColl ("status/" ++ b))) jid).isSome = true →
      ∃ st1 st2 st3,
        upload st r ("results/" ++ b) jid = .ok st1 ∧
        move_file st1 "jobs/running" ("jobs/finished/" ++ b) jid = .ok st2 ∧
        update_file st2 (statusDoc s) ("status/" ++ b) jid = .ok st3 ∧
        update_in_database st (some r) s jid b = .ok st3 ∧
        present st3 ("results/" ++ b) jid = true ∧
        present st3 ("jobs/finished/" ++ b) jid = true ∧
        present st3 "jobs/running" jid = false ∧
        docGet (getColl st3 (dbColl ("status/" ++ b))) jid
          = some (statusDoc s) ∧
        getColl st2 (dbColl ("status/" ++ b))
          = getColl st (dbColl ("status/" ++ b)) ∧
        present st2 ("jobs/finished/" ++ b) jid = true ∧
        present st2 "jobs/running" jid = false)
  ∧ (∀ (st : MongoState) (rd : Option Doc) (s : StatusMsgDict)
        (jid b : String) (jdoc : Doc),
      s.status = "ERROR" → validObjectId jid = true → '/' ∉ b.data →
      findOneById st "jobs/running" jid = some jdoc →
      ((getColl st (dbColl "jobs/running")).map Prod.fst).Nodup →
      docGet (getColl st (dbColl "jobs/deleted")) jid = none →
      (docGet (getColl st (dbColl ("status/" ++ b))) jid).isSome = true →
      ∃ st1 st2,
        move_file st "jobs/running" "jobs/deleted" jid = .ok st1 ∧
        update_file st1 (statusDoc s) ("status/" ++ b) jid = .ok st2 ∧
        update_in_database st rd s jid b = .ok st2 ∧
        present st2 "jobs/deleted" jid = true ∧
        present st2 "jobs/running" jid = false ∧
        getColl st2 (dbColl ("results/" ++ b))
          = getColl st (dbColl ("results/" ++ b)) ∧
        docGet (getColl st2 (dbColl ("status/" ++ b))) jid
          = some (statusDoc s) ∧
        getColl st1 (dbColl ("status/" ++ b))
          = getColl st (dbColl ("status/" ++ b))) := by
  refine ⟨?_, ?_, ?_⟩
  · intro st s jid b hdone
    unfold update_in_database
    rw [if_pos hdone]
  · intro st r s jid b jdoc hdone hv hb hresfree hfound hnd hfinfree hstat
    have kres := dbColl_results b hb
    have kfin := dbColl_finished b hb
    have kstat := dbColl_status b hb
    have krun : dbColl "jobs/running" = ("jobs".data, "running".data) := by
      decide
    have dfinrun : dbColl ("jobs/finished/" ++ b) ≠ dbColl "jobs/running" := by
      rw [kfin, krun]
      exact prodNeSnd (ne_of_head 'f' 'r' _ _ (by decide))
    have dresrun : dbColl ("results/" ++ b) ≠ dbColl "jobs/running" := by
      rw [kres, krun]
      exact prodNeFst (by decide)
    have dresfin : dbColl ("results/" ++ b) ≠ dbColl ("jobs/finished/" ++ b) := by
      rw [kres, kfin]
      exact prodNeFst (by decide)
    have dstatres : dbColl ("status/" ++ b) ≠ dbColl ("results/" ++ b) := by
      rw [kstat, kres]
      exact prodNeFst (by decide)
    have dstatrun : dbColl ("status/" ++ b) ≠ dbColl "jobs/running" := by
      rw [kstat, krun]
      exact prodNeFst (by decide)
    have dstatfin : dbColl ("status/" ++ b) ≠ dbColl ("jobs/finished/" ++ b) := by
      rw [kstat, kfin]
      exact prodNeFst (by decide)
    have hup := upload_ok st r ("results/" ++ b) jid hv hresfree
    have f1run : getColl (setColl st (dbColl ("results/" ++ b))
          (getColl st (dbColl ("results/" ++ b)) ++ [(jid, r)]))
          (dbColl "jobs/running") = getColl st (dbColl "jobs/running") :=
      getColl_setColl_other _ _ _ _ (Ne.symm dresrun)
    set st1 := setColl st (dbColl ("results/" ++ b))
      (getColl st (dbColl ("results/" ++ b)) ++ [(jid, r)]) with hst1
    have hfound1 : findOneById st1 "jobs/running" jid = some jdoc := by
      unfold findOneById
      rw [f1run]
      exact hfound
    have hnd1 : ((getColl st1 (dbColl "jobs/running")).map Prod.fst).Nodup := by
      rw [f1run]
      exact hnd
    have f1fin : getColl st1 (dbColl ("jobs/finished/" ++ b))
        = getColl st (dbColl ("jobs/finished/" ++ b)) :=
      getColl_setColl_other _ _ _ _ (Ne.symm dresfin)
    have f1res : getColl st1 (dbColl ("results/" ++ b))
        = getColl st (dbColl ("results/" ++ b)) ++ [(jid, r)] :=
      getColl_setColl_same _ _ _
    have f1stat : getColl st1 (dbColl ("status/" ++ b))
        = getColl st (dbColl ("status/" ++ b)) :=
      getColl_setColl_other _ _ _ _ dstatres
    have fmidfin : getColl (move_file_mid st1 "jobs/running" jid)
        (dbColl ("jobs/finished/" ++ b))
        = getColl st1 (dbColl ("jobs/finished/" ++ b)) :=
      getColl_setColl_other _ _ _ _ dfinrun
    have fmidres : getColl (move_file_mid st1 "jobs/running" jid)
        (dbColl ("results/" ++ b))
        = getColl st1 (dbColl ("results/" ++ b)) :=
      getColl_setColl_other _ _ _ _ dresrun
    have fmidstat : getColl (move_file_mid st1 "jobs/running" jid)
        (dbColl ("status/" ++ b))
        = getColl st1 (dbColl ("status/" ++ b)) :=
      getColl_setColl_other _ _ _ _ dstatrun
    have fmidrun : getColl (move_file_mid st1 "jobs/running" jid)
        (dbColl "jobs/running")
        = docRemove (getColl st1 (dbColl "jobs/running")) jid :=
      getColl_setColl_same _ _ _
    have hfinfree1 : docGet (getColl (move_file_mid st1 "jobs/running" jid)
        (dbColl ("jobs/finished/" ++ b))) jid = none := by
      rw [fmidfin, f1fin]
      exact hfinfree
    have hmv := move_file_ok st1 "jobs/running" ("jobs/finished/" ++ b) jid
      jdoc hv hfound1 hfinfree1
    set mid := move_file_mid st1 "jobs/running" jid with hmid
    set st2 := setColl mid (dbColl ("jobs/finished/" ++ b))
      (getColl mid (dbColl ("jobs/finished/" ++ b)) ++ [(jid, jdoc)]) with hst2
    have f2fin : getColl st2 (dbColl ("jobs/finished/" ++ b))
        = getColl mid (dbColl ("jobs/finished/" ++ b)) ++ [(jid, jdoc)] :=
      getColl_setColl_same _ _ _
    have f2run : getColl st2 (dbColl "jobs/running")
        = getColl mid (dbColl "jobs/running") :=
      getColl_setColl_other _ _ _ _ (Ne.symm dfinrun)
    have f2res : getColl st2 (dbColl ("results/" ++ b))
        = getColl mid (dbColl ("results/" ++ b)) :=
      getColl_setColl_other _ _ _ _ dresfin
    have f2stat : getColl st2 (dbColl ("status/" ++ b))
        = getColl mid (dbColl ("status/" ++ b)) :=
      getColl_setColl_other _ _ _ _ dstatfin
    have f2statall : getColl st2 (dbColl ("status/" ++ b))
        = getColl st (dbColl ("status/" ++ b)) := by
      rw [f2stat, fmidstat, f1stat]
    have hstat2 : (docGet (getColl st2 (dbColl ("status/" ++ b))) jid).isSome
        = true := by
      rw [f2statall]
      exact hstat
    have hupd := update_file_ok st2 (statusDoc s) ("status/" ++ b) jid hv
      hstat2
    set st3 := setColl st2 (dbColl ("status/" ++ b))
      (docReplace (getColl st2 (dbColl ("status/" ++ b))) jid (statusDoc s))
      with hst3
    have f3res : getColl st3 (dbColl ("results/" ++ b))
        = getColl st2 (dbColl ("results/" ++ b)) :=
      getColl_setColl_other _ _ _ _ (Ne.symm dstatres)
    have f3fin : getColl st3 (dbColl ("jobs/finished/" ++ b))
        = getColl st2 (dbColl ("jobs/finished/" ++ b)) :=
      getColl_setColl_other _ _ _ _ (Ne.symm dstatfin)
    have f3run : getColl st3 (dbColl "jobs/running")
        = getColl st2 (dbColl "jobs/running") :=
      getColl_setColl_other _ _ _ _ (Ne.symm dstatrun)
    have f3stat : getColl st3 (dbColl ("status/" ++ b))
        = docReplace (getColl st2 (dbColl ("status/" ++ b))) jid
            (statusDoc s) :=
      getColl_setColl_same _ _ _
    refine ⟨st1, st2, st3, hup, hmv, hupd, ?_, ?_, ?_, ?_, ?_, f2statall,
      ?_, ?_⟩
    · simp [update_in_database, hdone, hup, hmv, hupd]
    · unfold present findOneById
      rw [f3res, f2res, fmidres, f1res,
        docGet_append_of_none _ _ _ hresfree]
      rfl
    · unfold present findOneById
      rw [f3fin, f2fin, docGet_append_of_none _ _ _ hfinfree1]
      rfl
    · unfold present findOneById
      rw [f3run, f2run, fmidrun, docGet_docRemove_self _ _ hnd1]
      rfl
    · rw [f3stat]
      exact docGet_docReplace_self _ _ _ hstat2
    · unfold present findOneById
      rw [f2fin, docGet_append_of_none _ _ _ hfinfree1]
      rfl
    · unfold present findOneById
      rw [f2run, fmidrun, docGet_docRemove_self _ _ hnd1]
      rfl
  · intro st rd s jid b jdoc herr hv hb hfound hnd hdelfree hstat
    have kstat := dbColl_status b hb
    have kres := dbColl_results b hb
    have krun : dbColl "jobs/running" = ("jobs".data, "running".data) := by
      decide
    have kdel : dbColl "jobs/deleted" = ("jobs".data, "deleted".data) := by
      decide
    have ddelrun : (dbColl "jobs/deleted" : List Char × List Char)
        ≠ dbColl "jobs/running" := by decide
    have dstatrun : dbColl ("status/" ++ b) ≠ dbColl "jobs/running" := by
      rw [kstat, krun]
      exact prodNeFst (by decide)
    have dstatdel : dbColl ("status/" ++ b) ≠ dbColl "jobs/deleted" := by
      rw [kstat, kdel]
      exact prodNeFst (by decide)
    have dresrun : dbColl ("results/" ++ b) ≠ dbColl "jobs/running" := by
      rw [kres, krun]
      exact prodNeFst (by decide)
    have dresdel : dbColl ("results/" ++ b) ≠ dbColl "jobs/deleted" := by
      rw [kres, kdel]
      exact prodNeFst (by decide)
    have dstatres : dbColl ("status/" ++ b) ≠ dbColl ("results/" ++ b) := by
      rw [kstat, kres]
      exact prodNeFst (by decide)
    have fmiddel : getColl (move_file_mid st "jobs/running" jid)
        (dbColl "jobs/deleted") = getColl st (dbColl "jobs/deleted") :=
      getColl_setColl_other _ _ _ _ ddelrun
    have fmidrun : getColl (move_file_mid st "jobs/running" jid)
        (dbColl "jobs/running")
        = docRemove (getColl st (dbColl "jobs/running")) jid :=
      getColl_setColl_same _ _ _
    have fmidstat : getColl (move_file_mid st "jobs/running" jid)
        (dbColl ("status/" ++ b)) = getColl st (dbColl ("status/" ++ b)) :=
      getColl_setColl_other _ _ _ _ dstatrun
    have fmidres : getColl (move_file_mid st "jobs/running" jid)
        (dbColl ("results/" ++ b)) = getColl st (dbColl ("results/" ++ b)) :=
      getColl_setColl_other _ _ _ _ dresrun
    have hdelfree1 : docGet (getColl (move_file_mid st "jobs/running" jid)
        (dbColl "jobs/deleted")) jid = none := by
      rw [fmiddel]
      exact hdelfree
    have hmv := move_file_ok st "jobs/running" "jobs/deleted" jid jdoc hv
      hfound hdelfree1
    set mid := move_file_mid st "jobs/running" jid with hmid
    set st1 := setColl mid (dbColl "jobs/deleted")
      (getColl mid (dbColl "jobs/deleted") ++ [(jid, jdoc)]) with hst1
    have f1del : getColl st1 (dbColl "jobs/deleted")
        = getColl mid (dbColl "jobs/deleted") ++ [(jid, jdoc)] :=
      getColl_setColl_same _ _ _
    have f1run : getColl st1 (dbColl "jobs/running")
        = getColl mid (dbColl "jobs/running") :=
      getColl_setColl_other _ _ _ _ (Ne.symm ddelrun)
    have f1stat : getColl st1 (dbColl ("status/" ++ b))
        = getColl mid (dbColl ("status/" ++ b)) :=
      getColl_setColl_other _ _ _ _ dstatdel
    have f1res : getColl st1 (dbColl ("results/" ++ b))
        = getColl mid (dbColl ("results/" ++ b)) :=
      getColl_setColl_other _ _ _ _ dresdel
    have f1statall : getColl st1 (dbColl ("status/" ++ b))
        = getColl st (dbColl ("status/" ++ b)) := by
      rw [f1stat, fmidstat]
    have hstat1 : (docGet (getColl st1 (dbColl ("status/" ++ b))) jid).isSome
        = true := by
      rw [f1statall]
      exact hstat
    have hupd := update_file_ok st1 (statusDoc s) ("status/" ++ b) jid hv
      hstat1
    set st2 := setColl st1 (dbColl ("status/" ++ b))
      (docReplace (getColl st1 (dbColl ("status/" ++ b))) jid (statusDoc s))
      with hst2
    have f2del : getColl st2 (dbColl "jobs/deleted")
        = getColl st1 (dbColl "jobs/deleted") :=
      getColl_setColl_other _ _ _ _ (Ne.symm dstatdel)
    have f2run : getColl st2 (dbColl "jobs/running")
        = getColl st1 (dbColl "jobs/running") :=
      getColl_setColl_other _ _ _ _ (Ne.symm dstatrun)
    have f2res : getColl st2 (dbColl ("results/" ++ b))
        = getColl st1 (dbColl ("results/" ++ b)) :=
      getColl_setColl_other _ _ _ _ (Ne.symm dstatres)
    have f2stat : getColl st2 (dbColl ("status/" ++ b))
        = docReplace (getColl st1 (dbColl ("status/" ++ b))) jid
            (statusDoc s) :=
      getColl_setColl_same _ _ _
    refine ⟨st1, st2, hmv, hupd, ?_, ?_, ?_, ?_, ?_, f1statall⟩
    · have hne : ¬ (s.status = "DONE") := by
        rw [herr]
        decide
      simp [update_in_database, herr, hmv, hupd]
    · unfold present findOneById
      rw [f2del, f1del, docGet_append_of_none _ _ _ hdelfree1]
      rfl
    · unfold present findOneById
      rw [f2run, f1run, fmidrun, docGet_docRemove_self _ _ hnd]
      rfl
    · rw [f2res, f1res, fmidres]
    · rw [f2stat]
      exact docGet_docReplace_self _ _ _ hstat1

/-- C2, witness: the three parts of `claim2_update_in_database`
instantiated on a concrete store with one running job and its status
record. -/
theorem claim2_witness :
    update_in_database dbState none doneStatus sampleId "alice" =
      .error (.valueError
        "The \x27result_dict\x27 argument cannot be None if the job is done.") ∧
    (∃ st1 st2 st3,
      upload dbState [("r", PyVal.int 5)] ("results/" ++ "alice") sampleId
        = .ok st1 ∧
      move_file st1 "jobs/running" ("jobs/finished/" ++ "alice") sampleId
        = .ok st2 ∧
      update_file st2 (statusDoc doneStatus) ("status/" ++ "alice") sampleId
        = .ok st3 ∧
      update_in_database dbState (some [("r", PyVal.int 5)]) doneStatus
        sampleId "alice" = .ok st3 ∧
      present st3 ("results/" ++ "alice") sampleId = true ∧
      present st3 ("jobs/finished/" ++ "alice") sampleId = true ∧
      present st3 "jobs/running" sampleId = false ∧
      docGet (getColl st3 (dbColl ("status/" ++ "alice"))) sampleId
        = some (statusDoc doneStatus) ∧
      getColl st2 (dbColl ("status/" ++ "alice"))
        = getColl dbState (dbColl ("status/" ++ "alice")) ∧
      present st2 ("jobs/finished/" ++ "alice") sampleId = true ∧
      present st2 "jobs/running" sampleId = false) ∧
    (∃ st1 st2,
      move_file dbState "jobs/running" "jobs/deleted" sampleId = .ok st1 ∧
      update_file st1 (statusDoc errorStatus) ("status/" ++ "alice") sampleId
        = .ok st2 ∧
      update_in_database dbState none errorStatus sampleId "alice"
        = .ok st2 ∧
      present st2 "jobs/deleted" sampleId = true ∧
      present st2 "jobs/running" sampleId = false ∧
      getColl st2 (dbColl ("results/" ++ "alice"))
        = getColl dbState (dbColl ("results/" ++ "alice")) ∧
      docGet (getColl st2 (dbColl ("status/" ++ "alice"))) sampleId
        = some (statusDoc errorStatus) ∧
      getColl st1 (dbColl ("status/" ++ "alice"))
        = getColl dbState (dbColl ("status/" ++ "alice"))) :=
  ⟨claim2_update_in_database.1 dbState doneStatus sampleId "alice" rfl,
   claim2_update_in_database.2.1 dbState [("r", PyVal.int 5)] doneStatus
     sampleId "alice" sampleDoc rfl (by decide) (by decide) (by decide)
     (by decide) (by decide) (by decide) (by decide),
   claim2_update_in_database.2.2 dbState none errorStatus sampleId "alice"
     sampleDoc rfl (by decide) (by decide) (by decide) (by decide)
     (by decide) (by decide)⟩

end Sqooler
